import Mathlib

/-!
Verification of the FormsiQ transcript field-extraction logic
(`streamlit_app.py`): a shallow embedding of the deterministic
regex-based extractor `extract_fields_dummy`, the delegated extractor's
error handling, and (modelled from the specification) the result
normalizer and transcript validator, together with proofs of the
behavioural claims made about them.

The Python extractor works by `re.search` with `re.IGNORECASE` over a
small set of fixed patterns.  We embed exactly those patterns as a tiny
regex AST (`Re`) together with a backtracking matcher (`runRe`) that
mirrors the Python engine's semantics on this fragment: leftmost match
position, alternatives tried in written order, greedy repetition tries
the longest extension first, lazy repetition the shortest, and a single
capture group records the span its subexpression consumed.
-/

namespace FormsiQ

/-- Python `\s` for the ASCII range: the whitespace characters recognised
by `str.strip()` and the `\s` class on the inputs at hand. -/
def isPySpace (c : Char) : Bool :=
  c = ' ' || c = '\t' || c = '\n' || c = '\r' || c = '\x0b' || c = '\x0c'

/-- The regex class `.` : any character except a newline (no `re.DOTALL`). -/
def isDotChar (c : Char) : Bool := c ≠ '\n'

/-- The regex class `[\d,]`. -/
def isDigitComma (c : Char) : Bool := c.isDigit || c = ','

/-- The regex class `[\d-]`. -/
def isDigitDash (c : Char) : Bool := c.isDigit || c = '-'

/-- The regex class `[\d/]`. -/
def isDigitSlash (c : Char) : Bool := c.isDigit || c = '/'

/-- The regex class `[\d.]`. -/
def isDigitDot (c : Char) : Bool := c.isDigit || c = '.'

/-- The regex class `[A-Za-z ]`. -/
def isAlphaSpace (c : Char) : Bool := c.isAlpha || c = ' '

/-- The regex class `['’]` (ASCII apostrophe or right single quote),
from the pattern `it['’]?s`. -/
def isApos (c : Char) : Bool := c = '\'' || c = '’'

/-- Regex abstract syntax for the fragment used by `streamlit_app.py`.
Repetition only ever occurs over a single character class there, which the
AST builds in (`star`/`plus` over a class predicate); the `Bool` flag
selects lazy (`true`) versus greedy (`false`) expansion order. -/
inductive Re where
  | lit : List Char → Re
  | cls : (Char → Bool) → Re
  | star : Bool → (Char → Bool) → Re
  | plus : Bool → (Char → Bool) → Re
  | opt : Re → Re
  | cat : Re → Re → Re
  | alt : Re → Re → Re
  | grp : Re → Re

/-- Case-insensitive literal matching (`re.IGNORECASE`): strip `w` from the
front of `s`, comparing characters through `Char.toLower`. -/
def stripLitCI : List Char → List Char → Option (List Char)
  | [], s => some s
  | _ :: _, [] => none
  | p :: ps, c :: cs => if c.toLower = p.toLower then stripLitCI ps cs else none

/-- Greedy Kleene star over a character class, in continuation-passing
style: consume as many class characters as possible, backtracking to
shorter extensions (down to none) if the continuation fails. -/
def starGreedy (p : Char → Bool) : List Char → (List Char → Option (List Char)) → Option (List Char)
  | [], k => k []
  | c :: cs, k =>
      if p c then (starGreedy p cs k).orElse (fun _ => k (c :: cs)) else k (c :: cs)

/-- Lazy Kleene star over a character class: try the continuation before
consuming each further class character. -/
def starLazy (p : Char → Bool) : List Char → (List Char → Option (List Char)) → Option (List Char)
  | [], k => k []
  | c :: cs, k =>
      (k (c :: cs)).orElse (fun _ => if p c then starLazy p cs k else none)

/-- The backtracking matcher.  `runRe r s cap k` tries to match `r` at the
start of `s`; `cap` is the capture recorded so far and `k` the
continuation receiving the remaining input and capture.  Alternation and
option try their first possibility first, mirroring the Python engine. -/
def runRe : Re → List Char → Option (List Char) →
    (List Char → Option (List Char) → Option (List Char)) → Option (List Char)
  | .lit w, s, cap, k =>
      match stripLitCI w s with
      | some s' => k s' cap
      | none => none
  | .cls p, s, cap, k =>
      match s with
      | [] => none
      | c :: cs => if p c then k cs cap else none
  | .star lz p, s, cap, k =>
      if lz then starLazy p s (fun s' => k s' cap) else starGreedy p s (fun s' => k s' cap)
  | .plus lz p, s, cap, k =>
      match s with
      | [] => none
      | c :: cs =>
          if p c then
            (if lz then starLazy p cs (fun s' => k s' cap) else starGreedy p cs (fun s' => k s' cap))
          else none
  | .opt r, s, cap, k => (runRe r s cap k).orElse (fun _ => k s cap)
  | .cat a b, s, cap, k => runRe a s cap (fun s' cap' => runRe b s' cap' k)
  | .alt a b, s, cap, k => (runRe a s cap k).orElse (fun _ => runRe b s cap k)
  | .grp r, s, cap, k =>
      runRe r s cap (fun s' _ => k s' (some (s.take (s.length - s'.length))))

/-- The final continuation of a search: the whole pattern matched, so
report the capture (every pattern below has exactly one mandatory group,
so the capture is present whenever the pattern matches). -/
def finK : List Char → Option (List Char) → Option (List Char) :=
  fun _ cap => some (cap.getD [])

/-- `re.search` semantics: try to match at each position from the left,
returning the capture of the leftmost successful match. -/
def reSearch (r : Re) : List Char → Option (List Char)
  | [] => runRe r [] none finK
  | c :: cs => (runRe r (c :: cs) none finK).orElse (fun _ => reSearch r cs)

/-- `re.search(pattern, s, re.IGNORECASE)` returning `group(1)`. -/
def search (r : Re) (s : String) : Option String :=
  (reSearch r s.toList).map (fun l => ⟨l⟩)

/-! ### The patterns of `extract_fields_dummy`, transcribed one-to-one -/

/-- `Borrower\s*:\s*(.+)` -/
def reBorrower : Re :=
  .cat (.lit "Borrower".toList)
    (.cat (.star false isPySpace)
      (.cat (.lit ":".toList)
        (.cat (.star false isPySpace) (.grp (.plus false isDotChar)))))

/-- `my name is\s+([A-Za-z ]+)` -/
def reMyNameIs : Re :=
  .cat (.lit "my name is".toList)
    (.cat (.plus false isPySpace) (.grp (.plus false isAlphaSpace)))

/-- `name'?s\s+([A-Za-z ]+)` -/
def reNameS : Re :=
  .cat (.lit "name".toList)
    (.cat (.opt (.lit "'".toList))
      (.cat (.lit "s".toList)
        (.cat (.plus false isPySpace) (.grp (.plus false isAlphaSpace)))))

/-- `(?:home at|it['’]?s)\s*(.+?)\.` -/
def reAddr : Re :=
  .cat (.alt (.lit "home at".toList)
             (.cat (.lit "it".toList) (.cat (.opt (.cls isApos)) (.lit "s".toList))))
    (.cat (.star false isPySpace)
      (.cat (.grp (.plus true isDotChar)) (.lit ".".toList)))

/-- `loan for\s*\$?([\d,]+)` -/
def reLoanFor : Re :=
  .cat (.lit "loan for".toList)
    (.cat (.star false isPySpace)
      (.cat (.opt (.lit "$".toList)) (.grp (.plus false isDigitComma))))

/-- `purchase price is\s*\$?([\d,]+)` -/
def rePurchasePrice : Re :=
  .cat (.lit "purchase price is".toList)
    (.cat (.star false isPySpace)
      (.cat (.opt (.lit "$".toList)) (.grp (.plus false isDigitComma))))

/-- `outstanding balance.*?\$?([\d,]+)` -/
def reOutstanding : Re :=
  .cat (.lit "outstanding balance".toList)
    (.cat (.star true isDotChar)
      (.cat (.opt (.lit "$".toList)) (.grp (.plus false isDigitComma))))

/-- `(\d+)-year fixed rate` -/
def reLoanTerm : Re :=
  .cat (.grp (.plus false Char.isDigit)) (.lit "-year fixed rate".toList)

/-- `rate is\s*([\d.]+%)` -/
def reRate : Re :=
  .cat (.lit "rate is".toList)
    (.cat (.star false isPySpace)
      (.grp (.cat (.plus false isDigitDot) (.lit "%".toList))))

/-- `SSN\s*(?:is)?\s*([\d-]+)` -/
def reSSN : Re :=
  .cat (.lit "SSN".toList)
    (.cat (.star false isPySpace)
      (.cat (.opt (.lit "is".toList))
        (.cat (.star false isPySpace) (.grp (.plus false isDigitDash)))))

/-- `DOB\s*(?:is)?\s*([\d/]+)` -/
def reDOB : Re :=
  .cat (.lit "DOB".toList)
    (.cat (.star false isPySpace)
      (.cat (.opt (.lit "is".toList))
        (.cat (.star false isPySpace) (.grp (.plus false isDigitSlash)))))

/-- `annual income.*?\$?([\d,]+)` -/
def reAnnual : Re :=
  .cat (.lit "annual income".toList)
    (.cat (.star true isDotChar)
      (.cat (.opt (.lit "$".toList)) (.grp (.plus false isDigitComma))))

/-- `gross monthly income.*?\$?([\d,]+)` -/
def reGross : Re :=
  .cat (.lit "gross monthly income".toList)
    (.cat (.star true isDotChar)
      (.cat (.opt (.lit "$".toList)) (.grp (.plus false isDigitComma))))

/-! ### Python string helpers used by the extractor -/

/-- `str.strip()` on a character list. -/
def pyStripList (l : List Char) : List Char :=
  ((l.dropWhile isPySpace).reverse.dropWhile isPySpace).reverse

/-- `str.strip()`. -/
def pyStrip (s : String) : String := ⟨pyStripList s.toList⟩

/-- `str.rstrip('.')`. -/
def rstripDot (s : String) : String :=
  ⟨(s.toList.reverse.dropWhile (fun c => c = '.')).reverse⟩

/-- `s.split(",")[0]`: the text before the first comma (the whole string
when no comma occurs). -/
def beforeComma (s : String) : String :=
  ⟨s.toList.takeWhile (fun c => c ≠ ',')⟩

/-! ### Data model -/

/-- One extracted datum: `{'field_name': ..., 'field_value': ...,
'confidence_score': ...}`.  `field_value` is `none` for the JSON `null`
that the normalizer fills in; the confidence constants of the source
(0.50, 0.75, 0.90, 0.95, 0.0) are all exactly representable, so `ℚ`
models the Python floats faithfully here. -/
structure Field where
  field_name : String
  field_value : Option String
  confidence_score : ℚ
deriving DecidableEq, Repr

/-- The `{"fields": [...]}` dictionary returned by an extractor. -/
structure ExtractionResult where
  fields : List Field
deriving DecidableEq, Repr

/-! ### The rules of `extract_fields_dummy`, one definition per source block -/

/-- Rule 1 (Borrower Name), value computation: `Borrower\s*:\s*(.+)` with
refinement via `my name is`/`name'?s` inside the capture, else the text
before the first comma; fallback `my name is` over the whole transcript. -/
def borrowerNameValue (transcript : String) : Option String :=
  match search reBorrower transcript with
  | some g =>
      let raw := rstripDot (pyStrip g)
      match (search reMyNameIs raw).orElse (fun _ => search reNameS raw) with
      | some g2 => some (pyStrip g2)
      | none => some (pyStrip (beforeComma raw))
  | none =>
      match search reMyNameIs transcript with
      | some g2 => some (pyStrip g2)
      | none => none

/-- Rule 1 (Borrower Name) as a field; Python's `if name:` makes an empty
string fall through just like `None`. -/
def borrowerField (t : String) : Option Field :=
  (borrowerNameValue t).bind
    (fun n => if n = "" then none else some ⟨"Borrower Name", some n, 0.50⟩)

/-- Rule 2 (Property Address): `(?:home at|it['’]?s)\s*(.+?)\.`. -/
def propertyAddressField (t : String) : Option Field :=
  (search reAddr t).map (fun g => ⟨"Property Address", some (pyStrip g), 0.50⟩)

/-- Rule 3 (Loan Amount): `loan for` or else `purchase price is` or else
`outstanding balance`, rendered with a leading `$`. -/
def loanAmountField (t : String) : Option Field :=
  ((search reLoanFor t).orElse
      (fun _ => (search rePurchasePrice t).orElse (fun _ => search reOutstanding t))).map
    (fun g => ⟨"Loan Amount", some ("$" ++ pyStrip g), 0.50⟩)

/-- Rule 4 (Loan Term): `(\d+)-year fixed rate`, rendered `<digits>-year`. -/
def loanTermField (t : String) : Option Field :=
  (search reLoanTerm t).map (fun g => ⟨"Loan Term", some (g ++ "-year"), 0.50⟩)

/-- Rule 5 (Interest Rate): `rate is\s*([\d.]+%)`. -/
def interestRateField (t : String) : Option Field :=
  (search reRate t).map (fun g => ⟨"Interest Rate", some g, 0.75⟩)

/-- Rule 6 (SSN): `SSN\s*(?:is)?\s*([\d-]+)`. -/
def ssnField (t : String) : Option Field :=
  (search reSSN t).map (fun g => ⟨"SSN", some g, 0.90⟩)

/-- Rule 7 (Date of Birth): `DOB\s*(?:is)?\s*([\d/]+)`. -/
def dobField (t : String) : Option Field :=
  (search reDOB t).map (fun g => ⟨"Date of Birth", some g, 0.95⟩)

/-- Rule 8 (Income): `annual income` or else `gross monthly income`,
rendered with a leading `$`. -/
def incomeField (t : String) : Option Field :=
  ((search reAnnual t).orElse (fun _ => search reGross t)).map
    (fun g => ⟨"Income", some ("$" ++ pyStrip g), 0.75⟩)

/-- The eight rule results in source order; a rule whose pattern does not
match contributes `none`. -/
def ruleFields (t : String) : List (Option Field) :=
  [borrowerField t, propertyAddressField t, loanAmountField t, loanTermField t,
   interestRateField t, ssnField t, dobField t, incomeField t]

/-- `extract_fields_dummy`: the matched fields, appended in rule order. -/
def extract_fields_dummy (t : String) : ExtractionResult :=
  ⟨(ruleFields t).reduceOption⟩

/-- The `field_name`s of the deterministic extractor's output, in order. -/
def fieldNames (t : String) : List String :=
  (extract_fields_dummy t).fields.map (fun f => f.field_name)

/-! ### Components modelled from the specification

The repository's most elaborated extractor variant (its result
normalizer and transcript validator) is not among the source files here;
only the plain extractor and its UI caller are.  Those two components are
therefore modelled from the specification's contracts (§4.2, §4.3). -/

/-- Modelled from the spec: the fixed `REQUIRED_FIELDS` enumeration
(§4.2); it coincides with the rule order of `extract_fields_dummy`. -/
def REQUIRED_FIELDS : List String :=
  ["Borrower Name", "Property Address", "Loan Amount", "Loan Term",
   "Interest Rate", "SSN", "Date of Birth", "Income"]

/-- Modelled from the spec: the Result Normalizer (§4.2), absent from the
sources here.  Existing entries are kept verbatim in their original
order; every required field absent from the input is appended as a
placeholder with `field_value = null` and `confidence_score = 0.0`, in
`REQUIRED_FIELDS` order. -/
def normalize_fields (fs : List Field) : List Field :=
  fs ++ (REQUIRED_FIELDS.filter
          (fun n => ! fs.any (fun f => f.field_name == n))).map
        (fun n => ⟨n, none, 0.0⟩)

/-- The deterministic pipeline result after normalization. -/
def normalizedFields (t : String) : List Field :=
  normalize_fields (extract_fields_dummy t).fields

/-- `contains` on character lists (Python's `in` for strings). -/
def containsSub (pat : List Char) : List Char → Bool
  | [] => pat.isEmpty
  | c :: cs => (pat.isPrefixOf (c :: cs)) || containsSub pat cs

/-- Modelled from the spec: the Transcript Validator (§4.3), absent from
the sources here.  Rejects a transcript whose trimmed length is below 30
characters, then one whose lowercased text contains no mortgage-related
keyword; otherwise accepts with an empty reason. -/
def validate_transcript (t : String) : Bool × String :=
  if (pyStrip t).length < 30 then
    (false, "Transcript too short or empty")
  else if ¬ (["loan", "borrower", "ssn", "dob", "$", "income"].any
              (fun kw => containsSub kw.toList t.toLower.toList)) then
    (false, "No mortgage-related data found")
  else
    (true, "")

/-- Outcome of running the deterministic pipeline behind the validator. -/
inductive PipelineResult where
  | rejected : String → PipelineResult
  | extracted : ExtractionResult → PipelineResult
deriving DecidableEq, Repr

/-- Modelled from the spec: the control flow `validate → extract →
normalize` (§2); a rejected transcript is never handed to an extractor,
which the `rejected` branch exhibits by carrying only the reason. -/
def process_transcript (t : String) : PipelineResult :=
  match validate_transcript t with
  | (false, reason) => .rejected reason
  | (true, _) => .extracted ⟨normalizedFields t⟩

/-! ### The delegated extractor `extract_fields_via_openai`

The body is one `try`/`except` around a network call and a JSON parse:
any exception becomes the bare dictionary `{"error": str(e)}`.  The
network call and `json.loads` are external collaborators, so they enter
the embedding as parameters: `call` is the outcome of
`client.chat.completions.create` (an exception message or the reply
content), `parse` the outcome of `json.loads` on that content. -/

/-- Result shape of the delegated extractor: either the parsed
`{"fields": [...]}` document or the bare `{"error": <string>}`. -/
inductive AiResult where
  | ok : List Field → AiResult
  | error : String → AiResult
deriving DecidableEq, Repr

/-- `extract_fields_via_openai`: every failure of the call or of the JSON
parse is caught and returned as `.error`. -/
def extract_fields_via_openai (call : Except String String)
    (parse : String → Except String (List Field)) : AiResult :=
  match call with
  | .error e => .error e
  | .ok content =>
      match parse content with
      | .ok fs => .ok fs
      | .error e => .error e

/-- The caller's quota test (source line 257):
`any(code in result["error"].lower() for code in ("quota", "429", "rate limit"))`. -/
def fallbackWarranted (err : String) : Bool :=
  ["quota", "429", "rate limit"].any
    (fun code => containsSub code.toList err.toLower.toList)

/-- What the Extract-Fields handler does with an AI-extractor result
(source lines 250–272): empty field list → "no relevant data" notice;
error mentioning quota/429/rate limit → suggest the dummy extractor;
other error → show it; otherwise render the JSON. -/
inductive CallerAction where
  | noRelevantData : CallerAction
  | suggestDummyFallback : CallerAction
  | showError : String → CallerAction
  | showJson : List Field → CallerAction
deriving DecidableEq, Repr

/-- The Extract-Fields handler's case analysis on the AI result. -/
def handleAiResult : AiResult → CallerAction
  | .ok fs => if fs.isEmpty then .noRelevantData else .showJson fs
  | .error e => if fallbackWarranted e then .suggestDummyFallback else .showError e

/-! ### Shape of each rule's output -/

theorem borrowerField_shape (t : String) (f : Field) (h : borrowerField t = some f) :
    f.field_name = "Borrower Name" ∧ f.confidence_score = 0.50 := by
  unfold borrowerField at h
  rw [Option.bind_eq_some] at h
  obtain ⟨n, _, hif⟩ := h
  by_cases hn : n = ""
  · simp [hn] at hif
  · rw [if_neg hn] at hif
    cases hif
    exact ⟨rfl, rfl⟩

theorem propertyAddressField_shape (t : String) (f : Field)
    (h : propertyAddressField t = some f) :
    f.field_name = "Property Address" ∧ f.confidence_score = 0.50 := by
  unfold propertyAddressField at h
  rcases hs : search reAddr t with _ | g <;> rw [hs] at h <;> simp at h
  rw [← h]
  exact ⟨rfl, rfl⟩

theorem loanAmountField_shape (t : String) (f : Field) (h : loanAmountField t = some f) :
    f.field_name = "Loan Amount" ∧ f.confidence_score = 0.50 := by
  unfold loanAmountField at h
  rcases hs : (search reLoanFor t).orElse
      (fun _ => (search rePurchasePrice t).orElse (fun _ => search reOutstanding t)) with _ | g <;>
    rw [hs] at h <;> simp at h
  rw [← h]
  exact ⟨rfl, rfl⟩

theorem loanTermField_shape (t : String) (f : Field) (h : loanTermField t = some f) :
    f.field_name = "Loan Term" ∧ f.confidence_score = 0.50 := by
  unfold loanTermField at h
  rcases hs : search reLoanTerm t with _ | g <;> rw [hs] at h <;> simp at h
  rw [← h]
  exact ⟨rfl, rfl⟩

theorem interestRateField_shape (t : String) (f : Field) (h : interestRateField t = some f) :
    f.field_name = "Interest Rate" ∧ f.confidence_score = 0.75 := by
  unfold interestRateField at h
  rcases hs : search reRate t with _ | g <;> rw [hs] at h <;> simp at h
  rw [← h]
  exact ⟨rfl, rfl⟩

theorem ssnField_shape (t : String) (f : Field) (h : ssnField t = some f) :
    f.field_name = "SSN" ∧ f.confidence_score = 0.90 := by
  unfold ssnField at h
  rcases hs : search reSSN t with _ | g <;> rw [hs] at h <;> simp at h
  rw [← h]
  exact ⟨rfl, rfl⟩

theorem dobField_shape (t : String) (f : Field) (h : dobField t = some f) :
    f.field_name = "Date of Birth" ∧ f.confidence_score = 0.95 := by
  unfold dobField at h
  rcases hs : search reDOB t with _ | g <;> rw [hs] at h <;> simp at h
  rw [← h]
  exact ⟨rfl, rfl⟩

theorem incomeField_shape (t : String) (f : Field) (h : incomeField t = some f) :
    f.field_name = "Income" ∧ f.confidence_score = 0.75 := by
  unfold incomeField at h
  rcases hs : (search reAnnual t).orElse (fun _ => search reGross t) with _ | g <;>
    rw [hs] at h <;> simp at h
  rw [← h]
  exact ⟨rfl, rfl⟩

/-- Each position of `ruleFields` can only emit the field name of its rule. -/
theorem ruleFields_names (t : String) :
    List.Forall₂ (fun o n => ∀ f : Field, o = some f → f.field_name = n)
      (ruleFields t) REQUIRED_FIELDS := by
  refine .cons (fun f h => (borrowerField_shape t f h).1) ?_
  refine .cons (fun f h => (propertyAddressField_shape t f h).1) ?_
  refine .cons (fun f h => (loanAmountField_shape t f h).1) ?_
  refine .cons (fun f h => (loanTermField_shape t f h).1) ?_
  refine .cons (fun f h => (interestRateField_shape t f h).1) ?_
  refine .cons (fun f h => (ssnField_shape t f h).1) ?_
  refine .cons (fun f h => (dobField_shape t f h).1) ?_
  exact .cons (fun f h => (incomeField_shape t f h).1) .nil

/-- Collapsing the optional rule results keeps the (present) names a
subsequence of the rule-order name list. -/
theorem reduceOption_names_sublist {l : List (Option Field)} {names : List String}
    (h : List.Forall₂ (fun o n => ∀ f : Field, o = some f → f.field_name = n) l names) :
    (l.reduceOption.map (fun f => f.field_name)).Sublist names := by
  induction h with
  | nil => simp [List.reduceOption]
  | @cons o n l' names' h₁ _ ih =>
      rcases o with _ | f
      · simpa [List.reduceOption] using ih.cons n
      · simpa [List.reduceOption, h₁ f rfl] using ih.cons₂ n

/-- The names produced by the deterministic extractor, in order, form a
subsequence of the rule-order (equivalently `REQUIRED_FIELDS`) list. -/
theorem fieldNames_sublist (t : String) : (fieldNames t).Sublist REQUIRED_FIELDS :=
  reduceOption_names_sublist (ruleFields_names t)

theorem REQUIRED_FIELDS_nodup : REQUIRED_FIELDS.Nodup := by decide

theorem fieldNames_nodup (t : String) : (fieldNames t).Nodup :=
  REQUIRED_FIELDS_nodup.sublist (fieldNames_sublist t)

/-- Membership in the extractor output is membership of one rule's result. -/
theorem mem_fields_iff (t : String) (f : Field) :
    f ∈ (extract_fields_dummy t).fields ↔ some f ∈ ruleFields t := by
  simp [extract_fields_dummy, List.reduceOption_mem_iff]

/-! ### The normalizer's counting behaviour -/

/-- The `any`-test of the normalizer is membership in the extractor's
name list. -/
theorem any_name_iff (t : String) (m : String) :
    ((extract_fields_dummy t).fields.any (fun f => f.field_name == m) = true) ↔
      m ∈ fieldNames t := by
  simp [fieldNames, List.any_eq_true, List.mem_map, beq_iff_eq]

/-- Names of the normalized output: the extractor's names followed by the
required names it missed. -/
theorem normalizedFields_names (t : String) :
    (normalizedFields t).map (fun f => f.field_name) =
      fieldNames t ++ REQUIRED_FIELDS.filter
        (fun n => ! (extract_fields_dummy t).fields.any (fun f => f.field_name == n)) := by
  rw [normalizedFields, normalize_fields, List.map_append, List.map_map]
  have hid : ((fun f : Field => f.field_name) ∘ fun n : String => (⟨n, none, 0.0⟩ : Field))
      = fun n : String => n := rfl
  rw [hid, List.map_id']
  rfl


/-- C1: For every transcript, the deterministic pipeline's final result —
the extractor's output after normalization — has exactly one `Field` for
each of the eight `REQUIRED_FIELDS` names (its name list counts each
required name once, and the whole list never has fewer than 8 entries),
and every required field that no rule matched appears with
`field_value = null` and `confidence_score = 0.0`. -/
theorem C1_normalized_required_once (t : String) (n : String) (hn : n ∈ REQUIRED_FIELDS) :
    ((normalizedFields t).map (fun f => f.field_name)).count n = 1 ∧
    8 ≤ (normalizedFields t).length ∧
    (n ∉ fieldNames t → (⟨n, none, 0.0⟩ : Field) ∈ normalizedFields t) := by
  have hfilter : ∀ m : String,
      (m ∈ REQUIRED_FIELDS.filter
        (fun x => ! (extract_fields_dummy t).fields.any (fun f => f.field_name == x))) ↔
      (m ∈ REQUIRED_FIELDS ∧ m ∉ fieldNames t) := by
    intro m
    rw [List.mem_filter]
    constructor
    · rintro ⟨h₁, h₂⟩
      refine ⟨h₁, fun hmem => ?_⟩
      rw [Bool.not_eq_true'] at h₂
      exact absurd ((any_name_iff t m).mpr hmem) (by simp [h₂])
    · rintro ⟨h₁, h₂⟩
      refine ⟨h₁, ?_⟩
      rw [Bool.not_eq_true']
      rcases ha : (extract_fields_dummy t).fields.any (fun f => f.field_name == m) with _ | _
      · rfl
      · exact absurd ((any_name_iff t m).mp ha) h₂
  refine ⟨?_, ?_, ?_⟩
  · rw [normalizedFields_names, List.count_append]
    by_cases hm : n ∈ fieldNames t
    · have h1 : (fieldNames t).count n = 1 :=
        (List.nodup_iff_count_eq_one.mp (fieldNames_nodup t)) n hm
      have h2 : (REQUIRED_FIELDS.filter
          (fun x => ! (extract_fields_dummy t).fields.any (fun f => f.field_name == x))).count n
            = 0 :=
        List.count_eq_zero.mpr (fun hmem => ((hfilter n).mp hmem).2 hm)
      omega
    · have h1 : (fieldNames t).count n = 0 := List.count_eq_zero.mpr hm
      have hnodupf : (REQUIRED_FIELDS.filter
          (fun x => ! (extract_fields_dummy t).fields.any (fun f => f.field_name == x))).Nodup :=
        REQUIRED_FIELDS_nodup.filter _
      have h2 : (REQUIRED_FIELDS.filter
          (fun x => ! (extract_fields_dummy t).fields.any (fun f => f.field_name == x))).count n
            = 1 :=
        (List.nodup_iff_count_eq_one.mp hnodupf) n ((hfilter n).mpr ⟨hn, hm⟩)
      omega
  · have hsub : REQUIRED_FIELDS ⊆ (normalizedFields t).map (fun f => f.field_name) := by
      intro m hm
      rw [normalizedFields_names]
      by_cases hmem : m ∈ fieldNames t
      · exact List.mem_append_left _ hmem
      · exact List.mem_append_right _ ((hfilter m).mpr ⟨hm, hmem⟩)
    have hlen := (REQUIRED_FIELDS_nodup.subperm hsub).length_le
    rw [List.length_map] at hlen
    exact hlen
  · intro hnot
    have hmem : n ∈ REQUIRED_FIELDS.filter
        (fun x => ! (extract_fields_dummy t).fields.any (fun f => f.field_name == x)) :=
      (hfilter n).mpr ⟨hn, hnot⟩
    rw [normalizedFields, normalize_fields]
    exact List.mem_append_right _ (List.mem_map.mpr ⟨n, hmem, rfl⟩)

/-- Witness for C1 at the empty transcript and the name "SSN": no rule
matches, so the normalized output carries the null placeholder. -/
theorem C1_normalized_required_once_witness :
    ((normalizedFields "").map (fun f => f.field_name)).count "SSN" = 1 ∧
    8 ≤ (normalizedFields "").length ∧
    (⟨"SSN", none, 0.0⟩ : Field) ∈ normalizedFields "" :=
  ⟨(C1_normalized_required_once "" "SSN" (by decide)).1,
   (C1_normalized_required_once "" "SSN" (by decide)).2.1,
   (C1_normalized_required_once "" "SSN" (by decide)).2.2 (by decide)⟩


/-- C5: no two entries of the deterministic extractor's output share a
`field_name`: the name list is duplicate-free for every transcript. -/
theorem C5_field_names_nodup (t : String) : (fieldNames t).Nodup :=
  fieldNames_nodup t

/-- The fixed confidence constant each rule attaches to its field name. -/
def ruleConfidence : String → ℚ
  | "Borrower Name" => 0.50
  | "Property Address" => 0.50
  | "Loan Amount" => 0.50
  | "Loan Term" => 0.50
  | "Interest Rate" => 0.75
  | "SSN" => 0.90
  | "Date of Birth" => 0.95
  | "Income" => 0.75
  | _ => 0

/-- C10: the extractor's output lists fields in the fixed rule order
(its name list is a subsequence of the rule-order list), and every
emitted field carries the fixed constant confidence of its rule
(0.50, 0.50, 0.50, 0.50, 0.75, 0.90, 0.95, 0.75), a value in [0, 1]. -/
theorem C10_rule_order_and_confidences (t : String) (f : Field)
    (hf : f ∈ (extract_fields_dummy t).fields) :
    (fieldNames t).Sublist REQUIRED_FIELDS ∧
    (∀ o ∈ ruleFields t, ∀ g : Field, o = some g → g ∈ (extract_fields_dummy t).fields) ∧
    f.confidence_score = ruleConfidence f.field_name ∧
    0 ≤ f.confidence_score ∧ f.confidence_score ≤ 1 := by
  refine ⟨fieldNames_sublist t,
    fun o ho g hg => (mem_fields_iff t g).mpr (hg ▸ ho), ?_⟩
  rw [mem_fields_iff] at hf
  simp only [ruleFields, List.mem_cons, List.not_mem_nil, or_false] at hf
  rcases hf with h | h | h | h | h | h | h | h
  · obtain ⟨hn, hc⟩ := borrowerField_shape t f h.symm
    rw [hc, hn]
    exact ⟨by with_unfolding_all exact of_decide_eq_true rfl, by norm_num, by norm_num⟩
  · obtain ⟨hn, hc⟩ := propertyAddressField_shape t f h.symm
    rw [hc, hn]
    exact ⟨by with_unfolding_all exact of_decide_eq_true rfl, by norm_num, by norm_num⟩
  · obtain ⟨hn, hc⟩ := loanAmountField_shape t f h.symm
    rw [hc, hn]
    exact ⟨by with_unfolding_all exact of_decide_eq_true rfl, by norm_num, by norm_num⟩
  · obtain ⟨hn, hc⟩ := loanTermField_shape t f h.symm
    rw [hc, hn]
    exact ⟨by with_unfolding_all exact of_decide_eq_true rfl, by norm_num, by norm_num⟩
  · obtain ⟨hn, hc⟩ := interestRateField_shape t f h.symm
    rw [hc, hn]
    exact ⟨by with_unfolding_all exact of_decide_eq_true rfl, by norm_num, by norm_num⟩
  · obtain ⟨hn, hc⟩ := ssnField_shape t f h.symm
    rw [hc, hn]
    exact ⟨by with_unfolding_all exact of_decide_eq_true rfl, by norm_num, by norm_num⟩
  · obtain ⟨hn, hc⟩ := dobField_shape t f h.symm
    rw [hc, hn]
    exact ⟨by with_unfolding_all exact of_decide_eq_true rfl, by norm_num, by norm_num⟩
  · obtain ⟨hn, hc⟩ := incomeField_shape t f h.symm
    rw [hc, hn]
    exact ⟨by with_unfolding_all exact of_decide_eq_true rfl, by norm_num, by norm_num⟩

/-- Witness for C10 at a concrete transcript and its SSN field. -/
theorem C10_rule_order_and_confidences_witness :
    (fieldNames "My SSN is 905-95-2209 and my DOB is 8/25/1967.").Sublist REQUIRED_FIELDS ∧
    (∀ o ∈ ruleFields "My SSN is 905-95-2209 and my DOB is 8/25/1967.", ∀ g : Field,
      o = some g →
        g ∈ (extract_fields_dummy "My SSN is 905-95-2209 and my DOB is 8/25/1967.").fields) ∧
    (0.90 : ℚ) = ruleConfidence "SSN" ∧ (0 : ℚ) ≤ 0.90 ∧ (0.90 : ℚ) ≤ 1 :=
  C10_rule_order_and_confidences "My SSN is 905-95-2209 and my DOB is 8/25/1967."
    ⟨"SSN", some "905-95-2209", 0.90⟩ (by with_unfolding_all exact of_decide_eq_true rfl)


/-- Every name in the extractor output comes from some rule's result. -/
theorem mem_fieldNames_elim (t : String) (nm : String) (hmem : nm ∈ fieldNames t) :
    ∃ f : Field, some f ∈ ruleFields t ∧ f.field_name = nm := by
  rw [fieldNames] at hmem
  obtain ⟨f, hf, hname⟩ := List.mem_map.mp hmem
  exact ⟨f, (mem_fields_iff t f).mp hf, hname⟩

/-- C3: `extract_fields_dummy` is total and always returns the
`{"fields": <list>}` shape, and a rule whose pattern fails to match
leaves that rule's field name out of the returned list instead of
producing an error. -/
theorem C3_total_and_nonmatch_absent (t : String) :
    (∃ fs : List Field, extract_fields_dummy t = ⟨fs⟩) ∧
    (borrowerField t = none → "Borrower Name" ∉ fieldNames t) ∧
    (propertyAddressField t = none → "Property Address" ∉ fieldNames t) ∧
    (loanAmountField t = none → "Loan Amount" ∉ fieldNames t) ∧
    (loanTermField t = none → "Loan Term" ∉ fieldNames t) ∧
    (interestRateField t = none → "Interest Rate" ∉ fieldNames t) ∧
    (ssnField t = none → "SSN" ∉ fieldNames t) ∧
    (dobField t = none → "Date of Birth" ∉ fieldNames t) ∧
    (incomeField t = none → "Income" ∉ fieldNames t) := by
  refine ⟨⟨_, rfl⟩, ?_, ?_, ?_, ?_, ?_, ?_, ?_, ?_⟩ <;>
    · intro h hmem
      obtain ⟨f, hf, hname⟩ := mem_fieldNames_elim t _ hmem
      simp only [ruleFields, List.mem_cons, List.not_mem_nil, or_false] at hf
      rcases hf with h' | h' | h' | h' | h' | h' | h' | h' <;>
        first
        | (rw [h] at h'; exact Option.noConfusion h')
        | exact absurd ((borrowerField_shape t f h'.symm).1.symm.trans hname) (by decide)
        | exact absurd ((propertyAddressField_shape t f h'.symm).1.symm.trans hname) (by decide)
        | exact absurd ((loanAmountField_shape t f h'.symm).1.symm.trans hname) (by decide)
        | exact absurd ((loanTermField_shape t f h'.symm).1.symm.trans hname) (by decide)
        | exact absurd ((interestRateField_shape t f h'.symm).1.symm.trans hname) (by decide)
        | exact absurd ((ssnField_shape t f h'.symm).1.symm.trans hname) (by decide)
        | exact absurd ((dobField_shape t f h'.symm).1.symm.trans hname) (by decide)
        | exact absurd ((incomeField_shape t f h'.symm).1.symm.trans hname) (by decide)

/-- Witness for C3 at a transcript where no rule matches. -/
theorem C3_total_and_nonmatch_absent_witness :
    loanAmountField "Hello" = none ∧ "Loan Amount" ∉ fieldNames "Hello" :=
  ⟨by decide, (C3_total_and_nonmatch_absent "Hello").2.2.2.1 (by decide)⟩

/-- C8: on `"My SSN is 905-95-2209 and my DOB is 8/25/1967."` the
extractor reports SSN `905-95-2209` with confidence 0.90 and
Date of Birth `8/25/1967` with confidence 0.95. -/
theorem C8_ssn_dob_example :
    ssnField "My SSN is 905-95-2209 and my DOB is 8/25/1967." =
      some ⟨"SSN", some "905-95-2209", 0.90⟩ ∧
    dobField "My SSN is 905-95-2209 and my DOB is 8/25/1967." =
      some ⟨"Date of Birth", some "8/25/1967", 0.95⟩ ∧
    (⟨"SSN", some "905-95-2209", 0.90⟩ : Field) ∈
      (extract_fields_dummy "My SSN is 905-95-2209 and my DOB is 8/25/1967.").fields ∧
    (⟨"Date of Birth", some "8/25/1967", 0.95⟩ : Field) ∈
      (extract_fields_dummy "My SSN is 905-95-2209 and my DOB is 8/25/1967.").fields := by
  with_unfolding_all exact of_decide_eq_true rfl

/-- C2: whenever the `loan for $<amount>` pattern matches (in particular
whenever both it and `purchase price is $<amount>` occur), the Loan
Amount field is built from the `loan for` capture, with a leading `$`. -/
theorem C2_loan_for_priority (t : String) (g g' : String)
    (h1 : search reLoanFor t = some g) (h2 : search rePurchasePrice t = some g') :
    loanAmountField t = some ⟨"Loan Amount", some ("$" ++ pyStrip g), 0.50⟩ ∧
    (⟨"Loan Amount", some ("$" ++ pyStrip g), 0.50⟩ : Field) ∈
      (extract_fields_dummy t).fields := by
  have hfield : loanAmountField t = some ⟨"Loan Amount", some ("$" ++ pyStrip g), 0.50⟩ := by
    rw [loanAmountField, h1]
    rfl
  refine ⟨hfield, ?_⟩
  rw [mem_fields_iff]
  simp only [ruleFields, List.mem_cons]
  exact Or.inr (Or.inr (Or.inl hfield.symm))

/-- Witness for C2: the spec's own example transcript, where the
purchase-price alternative also matches (capturing `325,000,`) but the
loan-for alternative wins and yields `$300,000`. -/
theorem C2_loan_for_priority_witness :
    (⟨"Loan Amount", some "$300,000", 0.50⟩ : Field) ∈
      (extract_fields_dummy
        "The purchase price is $325,000, and I'd like a loan for $300,000.").fields := by
  have h := (C2_loan_for_priority
      "The purchase price is $325,000, and I'd like a loan for $300,000."
      "300,000" "325,000," (by decide) (by decide)).2
  have e : ("$" ++ pyStrip "300,000") = "$300,000" := by decide
  rw [e] at h
  exact h


/-- C4 (validator modelled from the spec, §4.3): a transcript whose
trimmed length is below 30 characters is rejected with reason
"Transcript too short or empty" before extraction; the pipeline's
`rejected` outcome carries no extraction at all, so neither extractor
runs on it. -/
theorem C4_short_transcript_rejected (t : String) (h : (pyStrip t).length < 30) :
    validate_transcript t = (false, "Transcript too short or empty") ∧
    process_transcript t = .rejected "Transcript too short or empty" := by
  have hv : validate_transcript t = (false, "Transcript too short or empty") := by
    rw [validate_transcript, if_pos h]
  exact ⟨hv, by rw [process_transcript, hv]⟩

/-- Witness for C4 at the spec's example `"Hello world"`. -/
theorem C4_short_transcript_rejected_witness :
    validate_transcript "Hello world" = (false, "Transcript too short or empty") ∧
    process_transcript "Hello world" = .rejected "Transcript too short or empty" :=
  C4_short_transcript_rejected "Hello world" (by decide)

/-- C6: whenever the external call or the JSON parse fails — network,
auth, rate limit, or a non-JSON reply — `extract_fields_via_openai`
returns the bare `{"error": <string>}` shape instead of propagating the
fault, and the caller suggests the dummy-extractor fallback exactly when
the lowercased message contains "quota", "429", or "rate limit". -/
theorem C6_failures_become_error_shape (call : Except String String)
    (parse : String → Except String (List Field))
    (hfail : (∃ e, call = .error e) ∨ (∃ c e, call = .ok c ∧ parse c = .error e)) :
    (∃ msg, extract_fields_via_openai call parse = .error msg) ∧
    (∀ msg, handleAiResult (.error msg) = .suggestDummyFallback ↔
      fallbackWarranted msg = true) := by
  constructor
  · rcases hfail with ⟨e, he⟩ | ⟨c, e, hc, hp⟩
    · exact ⟨e, by subst he; rfl⟩
    · exact ⟨e, by subst hc; simp [extract_fields_via_openai, hp]⟩
  · intro msg
    rw [handleAiResult]
    rcases hw : fallbackWarranted msg with _ | _
    · simp [hw]
    · simp [hw]

/-- Witness for C6 on a quota failure of the external call. -/
theorem C6_failures_become_error_shape_witness :
    (∃ msg, extract_fields_via_openai
        (Except.error "Error code: 429 - You exceeded your current quota")
        (fun _ => Except.error "Expecting value: line 1 column 1") = .error msg) ∧
    (handleAiResult (.error "Error code: 429 - You exceeded your current quota") =
        .suggestDummyFallback ↔
      fallbackWarranted "Error code: 429 - You exceeded your current quota" = true) :=
  ⟨(C6_failures_become_error_shape
      (Except.error "Error code: 429 - You exceeded your current quota")
      (fun _ => Except.error "Expecting value: line 1 column 1")
      (Or.inl ⟨"Error code: 429 - You exceeded your current quota", rfl⟩)).1,
   (C6_failures_become_error_shape
      (Except.error "Error code: 429 - You exceeded your current quota")
      (fun _ => Except.error "Expecting value: line 1 column 1")
      (Or.inl ⟨"Error code: 429 - You exceeded your current quota", rfl⟩)).2
     "Error code: 429 - You exceeded your current quota"⟩

/-- Counterexample to C7 as stated: this transcript contains
`address is <text>.` and none of the other alternatives, yet the
extractor emits no Property Address field — the source pattern only has
the `home at` and `it['’]?s` alternatives. -/
theorem C7_counterexample :
    containsSub "address is".toList
      "My address is 123 Main Street. Thanks for calling today.".toList = true ∧
    propertyAddressField "My address is 123 Main Street. Thanks for calling today." = none ∧
    (extract_fields_dummy
        "My address is 123 Main Street. Thanks for calling today.").fields.filter
      (fun f => f.field_name == "Property Address") = [] := by
  with_unfolding_all exact of_decide_eq_true rfl

/-- C7 amended: the Property Address rule matches the first occurrence of
the two alternatives `home at <text>.` / `it['’]?s <text>.` only
(`address is` and `located at` are not alternatives in this source),
taking the text up to the first period with confidence 0.50. -/
theorem C7_amended_two_alternatives (t : String) (g : String)
    (h : search reAddr t = some g) :
    propertyAddressField t = some ⟨"Property Address", some (pyStrip g), 0.50⟩ ∧
    (⟨"Property Address", some (pyStrip g), 0.50⟩ : Field) ∈
      (extract_fields_dummy t).fields := by
  have hfield : propertyAddressField t
      = some ⟨"Property Address", some (pyStrip g), 0.50⟩ := by
    rw [propertyAddressField, h]
    rfl
  refine ⟨hfield, ?_⟩
  rw [mem_fields_iff]
  simp only [ruleFields, List.mem_cons]
  exact Or.inr (Or.inl hfield.symm)

/-- Witness for the amended C7 on a `home at` transcript. -/
theorem C7_amended_two_alternatives_witness :
    propertyAddressField "I bought a home at 456 Oak Avenue. Great yard." =
      some ⟨"Property Address", some "456 Oak Avenue", 0.50⟩ := by
  have h := (C7_amended_two_alternatives "I bought a home at 456 Oak Avenue. Great yard."
      "456 Oak Avenue" (by decide)).1
  have e : pyStrip "456 Oak Avenue" = "456 Oak Avenue" := by decide
  rw [e] at h
  exact h

/-- Counterexample to C9 as stated: a transcript of the prompt-then-answer
form (a line mentioning "full name" followed by `Borrower: Robert King`)
whose Borrower Name is nevertheless taken from the earlier
`Borrower: Alice Smith` line — the source has no two-line full-name
heuristic, only the generic leftmost `Borrower\s*:\s*(.+)` rule. -/
theorem C9_counterexample :
    (⟨"Borrower Name", some "Robert King", 0.50⟩ : Field) ∉
      (extract_fields_dummy
        "Borrower: Alice Smith\nWhat is your full name?\nBorrower: Robert King\nThank you.").fields ∧
    (extract_fields_dummy
        "Borrower: Alice Smith\nWhat is your full name?\nBorrower: Robert King\nThank you.").fields.filter
      (fun f => f.field_name == "Borrower Name") =
      [⟨"Borrower Name", some "Alice Smith", 0.50⟩] := by
  with_unfolding_all exact of_decide_eq_true rfl


/-! ### Where a literal-headed pattern can match -/

/-- Case-insensitive "the pattern `w` matches at the front of `s`"
(the Boolean shadow of `stripLitCI`). -/
def startsCI : List Char → List Char → Bool
  | [], _ => true
  | _ :: _, [] => false
  | p :: ps, c :: cs => if c.toLower = p.toLower then startsCI ps cs else false

/-- Case-insensitive "the word `w` occurs somewhere in `l`". -/
def occursCI (w : List Char) : List Char → Bool
  | [] => w.isEmpty
  | c :: cs => startsCI w (c :: cs) || occursCI w cs

theorem stripLitCI_eq_none (w s : List Char) (h : startsCI w s = false) :
    stripLitCI w s = none := by
  induction w generalizing s with
  | nil => simp [startsCI] at h
  | cons p ps ih =>
      cases s with
      | nil => rfl
      | cons c cs =>
          rw [startsCI] at h
          rw [stripLitCI]
          by_cases hc : c.toLower = p.toLower
          · rw [if_pos hc] at h ⊢
            exact ih cs h
          · rw [if_neg hc]

theorem startsCI_append_split (w a b : List Char) (h : startsCI w (a ++ b) = true) :
    startsCI (w.take a.length) a = true ∧ startsCI (w.drop a.length) b = true := by
  induction a generalizing w with
  | nil => simpa [startsCI] using h
  | cons x xs ih =>
      cases w with
      | nil => simp [startsCI]
      | cons p ps =>
          rw [List.cons_append, startsCI] at h
          by_cases hx : x.toLower = p.toLower
          · rw [if_pos hx] at h
            obtain ⟨h1, h2⟩ := ih ps h
            refine ⟨?_, ?_⟩
            · rw [List.length_cons, List.take_succ_cons, startsCI, if_pos hx]
              exact h1
            · rw [List.length_cons, List.drop_succ_cons]
              exact h2
          · rw [if_neg hx] at h
            exact absurd h (by simp)

theorem startsCI_append_left (w a b : List Char) (h : w.length ≤ a.length) :
    startsCI w (a ++ b) = startsCI w a := by
  induction w generalizing a with
  | nil => simp [startsCI]
  | cons p ps ih =>
      cases a with
      | nil => simp at h
      | cons x xs =>
          rw [List.cons_append, startsCI, startsCI]
          by_cases hx : x.toLower = p.toLower
          · rw [if_pos hx, if_pos hx]
            exact ih xs (by simpa using h)
          · rw [if_neg hx, if_neg hx]

theorem occursCI_of_starts_drop (w l : List Char) (i : ℕ)
    (h : startsCI w (l.drop i) = true) : occursCI w l = true := by
  induction l generalizing i with
  | nil =>
      rw [List.drop_nil] at h
      cases w with
      | nil => rfl
      | cons p ps => simp [startsCI] at h
  | cons c cs ih =>
      cases i with
      | zero =>
          rw [List.drop_zero] at h
          rw [occursCI, h, Bool.true_or]
      | succ n =>
          rw [List.drop_succ_cons] at h
          rw [occursCI, ih n h, Bool.or_true]

/-- A pattern that begins with a literal cannot match where the literal
does not. -/
theorem runRe_cat_lit_none (w : List Char) (r : Re) (s : List Char)
    (cap : Option (List Char)) (k : List Char → Option (List Char) → Option (List Char))
    (h : startsCI w s = false) :
    runRe (.cat (.lit w) r) s cap k = none := by
  rw [runRe, runRe, stripLitCI_eq_none w s h]

/-- `re.search` skips any region where no match can start. -/
theorem reSearch_skip (r : Re) (l rest : List Char)
    (h : ∀ i, i < l.length → runRe r (l.drop i ++ rest) none finK = none) :
    reSearch r (l ++ rest) = reSearch r rest := by
  induction l with
  | nil => rfl
  | cons c cs ih =>
      have h0 : runRe r (c :: (cs ++ rest)) none finK = none := by
        have := h 0 (by simp)
        simpa using this
      rw [List.cons_append, reSearch, h0]
      rw [show (Option.none.orElse fun _ => reSearch r (cs ++ rest))
            = reSearch r (cs ++ rest) from rfl]
      refine ih (fun i hi => ?_)
      have := h (i + 1) (by simpa using Nat.succ_lt_succ hi)
      simpa using this

/-- The word `Borrower` does not begin inside the prompt line
`full name?` (at any cut of the line, even continuing past it). -/
theorem borrower_not_in_prompt :
    ∀ j, j < 11 →
      startsCI ("Borrower".toList.take (11 - j)) ("full name?\n".toList.drop j) = false := by
  decide

/-- Nor does a strict tail of `Borrower` continue into the prompt line. -/
theorem borrower_tail_not_prompt :
    ∀ m, m < 8 → 0 < m →
      startsCI ("Borrower".toList.drop m) "full name?\n".toList = false := by
  decide


/-- No `Borrower\s*:` match can start inside a prefix that does not
contain the word `Borrower` (case-insensitively), even allowing the word
to straddle into the following `full name?` prompt line. -/
theorem no_match_in_pre (pre rest2 : List Char)
    (hocc : occursCI "Borrower".toList pre = false) :
    ∀ i, i < pre.length →
      runRe reBorrower (pre.drop i ++ ("full name?\n".toList ++ rest2)) none finK = none := by
  intro i hi
  unfold reBorrower
  apply runRe_cat_lit_none
  by_contra hne
  rw [Bool.not_eq_false] at hne
  obtain ⟨h1, h2⟩ := startsCI_append_split _ _ _ hne
  by_cases hlen : 8 ≤ (pre.drop i).length
  · have h8 : ("Borrower".toList).length = 8 := rfl
    rw [List.take_of_length_le (h8 ▸ hlen)] at h1
    have hoc := occursCI_of_starts_drop _ _ i h1
    rw [hocc] at hoc
    exact Bool.noConfusion hoc
  · push_neg at hlen
    have hpos : 0 < (pre.drop i).length := by
      rw [List.length_drop]
      omega
    have hle : ("Borrower".toList.drop (pre.drop i).length).length ≤
        ("full name?\n".toList).length := by
      rw [List.length_drop]
      have h8 : ("Borrower".toList).length = 8 := rfl
      have h11 : ("full name?\n".toList).length = 11 := rfl
      omega
    rw [startsCI_append_left _ _ _ hle] at h2
    rw [borrower_tail_not_prompt (List.drop i pre).length hlen hpos] at h2
    exact Bool.noConfusion h2

/-- No `Borrower\s*:` match can start inside the `full name?` prompt
line itself. -/
theorem no_match_in_prompt (rest2 : List Char) :
    ∀ j, j < ("full name?\n".toList).length →
      runRe reBorrower ("full name?\n".toList.drop j ++ rest2) none finK = none := by
  intro j hj
  unfold reBorrower
  apply runRe_cat_lit_none
  by_contra hne
  rw [Bool.not_eq_false] at hne
  obtain ⟨h1, h2⟩ := startsCI_append_split _ _ _ hne
  have h11 : ("full name?\n".toList).length = 11 := rfl
  rw [List.length_drop, h11] at h1
  rw [h11] at hj
  rw [borrower_not_in_prompt j hj] at h1
  exact Bool.noConfusion h1

/-- At the answer line the `Borrower\s*:\s*(.+)` pattern matches and
captures exactly `Robert King`, whatever follows the line. -/
theorem runRe_borrower_king (post : List Char) :
    runRe reBorrower ("Borrower: Robert King\n".toList ++ post) none finK =
      some ("Robert King".toList) := by
  have h1 : "Borrower: Robert King\n".toList =
      'B' :: 'o' :: 'r' :: 'r' :: 'o' :: 'w' :: 'e' :: 'r' :: ':' :: ' ' :: 'R' :: 'o' ::
        'b' :: 'e' :: 'r' :: 't' :: ' ' :: 'K' :: 'i' :: 'n' :: 'g' :: '\n' :: [] := rfl
  have h2 : "Borrower".toList
      = 'B' :: 'o' :: 'r' :: 'r' :: 'o' :: 'w' :: 'e' :: 'r' :: [] := rfl
  have h3 : ":".toList = ':' :: [] := rfl
  rw [h1]
  simp +decide only [reBorrower, h2, h3, runRe, stripLitCI, starGreedy, starLazy, finK,
    List.cons_append, List.nil_append, List.length_cons, List.length_append,
    Option.orElse, Option.getD, Nat.add_sub_add_left, if_true, if_false, List.append_eq]
  have harith :
      post.length + 1 + 1 + 1 + 1 + 1 + 1 + 1 + 1 + 1 + 1 + 1 + 1 - (post.length + 1) = 11 := by
    omega
  rw [harith]
  rfl

/-- The Borrower-line search over the whole prompt-then-answer transcript
finds `Robert King`, provided `Borrower` does not occur before the
prompt line. -/
theorem search_borrower_king (pre post : String)
    (hocc : occursCI "Borrower".toList pre.toList = false) :
    search reBorrower (pre ++ "full name?\nBorrower: Robert King\n" ++ post) =
      some "Robert King" := by
  rw [search]
  have hM : ("full name?\nBorrower: Robert King\n" : String).data
      = "full name?\n".toList ++ "Borrower: Robert King\n".toList := rfl
  have htl : (pre ++ "full name?\nBorrower: Robert King\n" ++ post).toList
      = pre.toList ++
          ("full name?\n".toList ++ ("Borrower: Robert King\n".toList ++ post.toList)) := by
    show ((pre ++ "full name?\nBorrower: Robert King\n") ++ post).data = _
    rw [String.data_append, String.data_append, hM, List.append_assoc, List.append_assoc]
    rfl
  rw [htl, reSearch_skip _ _ _ (no_match_in_pre pre.toList _ hocc),
      reSearch_skip _ _ _ (no_match_in_prompt _)]
  have hB : "Borrower: Robert King\n".toList ++ post.toList
      = 'B' :: ("orrower: Robert King\n".toList ++ post.toList) := rfl
  rw [hB, reSearch, ← hB, runRe_borrower_king]
  rfl

/-- C9 amended: for a prompt-then-answer transcript
`pre ++ "full name?\nBorrower: Robert King\n" ++ post` in which the word
`Borrower` does not occur (case-insensitively) before the prompt line,
the extractor returns Borrower Name `Robert King` with confidence 0.50 —
via the generic leftmost `Borrower:` rule; this source has no dedicated
two-line full-name heuristic. -/
theorem C9_amended_generic_borrower_rule (pre post : String)
    (hocc : occursCI "Borrower".toList pre.toList = false) :
    borrowerField (pre ++ "full name?\nBorrower: Robert King\n" ++ post) =
      some ⟨"Borrower Name", some "Robert King", 0.50⟩ ∧
    (⟨"Borrower Name", some "Robert King", 0.50⟩ : Field) ∈
      (extract_fields_dummy (pre ++ "full name?\nBorrower: Robert King\n" ++ post)).fields := by
  have hsearch := search_borrower_king pre post hocc
  have hval : borrowerNameValue (pre ++ "full name?\nBorrower: Robert King\n" ++ post)
      = some "Robert King" := by
    rw [borrowerNameValue, hsearch]
    rfl
  have hbf : borrowerField (pre ++ "full name?\nBorrower: Robert King\n" ++ post)
      = some ⟨"Borrower Name", some "Robert King", 0.50⟩ := by
    rw [borrowerField, hval]
    rfl
  refine ⟨hbf, ?_⟩
  rw [mem_fields_iff]
  simp only [ruleFields, List.mem_cons]
  exact Or.inl hbf.symm

/-- Witness for the amended C9: a concrete prompt-then-answer call, with
a later `Borrower:` line that the leftmost rule correctly ignores. -/
theorem C9_amended_generic_borrower_rule_witness :
    borrowerField
        ("Agent: What is your " ++ "full name?\nBorrower: Robert King\n" ++ "Agent: thanks.") =
      some ⟨"Borrower Name", some "Robert King", 0.50⟩ :=
  (C9_amended_generic_borrower_rule "Agent: What is your " "Agent: thanks." (by decide)).1

end FormsiQ
